import Mathlib

/-!
Verification of the mcp-ragchat retrieval-augmented chat pipeline.

This file gives a shallow embedding of the core of the repository:

* `src/vector-store.ts` — the on-disk vector store (persistence, upsert,
  cosine-similarity search, domain listing and deletion);
* `src/chat-server.ts`  — input sanitization and the HTTP chat request
  handler;
* `src/mcp-server.ts`   — markdown splitting, the `ragchat_setup`
  ingestion tool and the `ragchat_test` chat path.

Modelling conventions:

* JavaScript strings are modelled as `List Char` (`Str`); `slice`,
  `substring`, `trim` and regex replacement become the corresponding
  list operations on characters.
* JavaScript numbers are modelled as real numbers `ℝ`; `Math.sqrt`
  becomes `Real.sqrt`.
* The filesystem under `~/.mcp-ragchat/domains` is modelled as an
  explicit state `FS`: the list of existing domain directories (in
  creation order) plus the contents of each `vectors.json` and
  `config.json` file.  Every store operation is a state-passing
  function, mirroring the `fs.*` calls of the source.
* The embedding and completion collaborators are opaque parameters
  that may fail (`Except`), mirroring thrown exceptions.
-/

/-- JavaScript strings, as lists of characters. -/
abbrev Str := List Char

/-- Whitespace stripped by JavaScript `String.prototype.trim` (the ASCII
part of the JS whitespace class: space, tab, newline, carriage return,
vertical tab, form feed). -/
def isJSWhitespace (c : Char) : Bool :=
  c == ' ' || c == '\t' || c == '\n' || c == '\r' || c == '\x0B' || c == '\x0C'

/-- JavaScript `text.trim()`: drop whitespace from both ends. -/
def jsTrim (s : Str) : Str :=
  ((s.dropWhile isJSWhitespace).reverse.dropWhile isJSWhitespace).reverse

/-- The control characters stripped by `sanitize` in `chat-server.ts`
(line 25): the regex class `[\x00-\x08\x0B\x0C\x0E-\x1F]`. -/
def isStrippedCtrl (c : Char) : Bool :=
  c.toNat ≤ 0x08 || c.toNat == 0x0B || c.toNat == 0x0C ||
    (0x0E ≤ c.toNat && c.toNat ≤ 0x1F)

/-- `MAX_INPUT` from `chat-server.ts` line 22. -/
def MAX_INPUT : ℕ := 1000

/-- `sanitize` from `chat-server.ts` lines 24–26:
`text.slice(0, MAX_INPUT).replace(/[\x00-\x08\x0B\x0C\x0E-\x1F]/g, "")`. -/
def sanitize (text : Str) : Str :=
  (text.take MAX_INPUT).filter (fun c => !isStrippedCtrl c)

/-- Characters kept verbatim by the domain-name sanitization in
`vector-store.ts` line 29: the class `[a-zA-Z0-9.-]`. -/
def isAllowedNameChar (c : Char) : Bool :=
  (('a' ≤ c && c ≤ 'z') || ('A' ≤ c && c ≤ 'Z') ||
   ('0' ≤ c && c ≤ '9') || c == '.' || c == '-')

/-- Domain-name sanitization from `vector-store.ts` line 29:
`domain.replace(/[^a-zA-Z0-9.-]/g, "_")`. -/
def sanitizeName (d : Str) : Str :=
  d.map (fun c => if isAllowedNameChar c then c else '_')

/-- `VectorDocument` from `vector-store.ts` lines 13–19. -/
structure VectorDocument where
  id : Str
  title : Str
  content : Str
  embedding : List ℝ
  createdAt : Str

/-- `SearchResult` from `vector-store.ts` lines 21–26. -/
structure SearchResult where
  id : Str
  title : Str
  content : Str
  score : ℝ

/-- The shape of a domain `config.json` as written by `ragchat_setup`
(`mcp-server.ts` lines 110–114).  The source stores it as an untyped
JSON object; the fields below are the ones it ever writes or reads. -/
structure DomainConfig where
  domain : Str
  systemPrompt : Str
  createdAt : Str
deriving DecidableEq

/-- One row of the `listDomains` report (`vector-store.ts` lines 124–128). -/
structure DomainInfo where
  domain : Str
  documentCount : ℕ
  createdAt : Option Str
deriving DecidableEq

/-- The filesystem state under `BASE_DIR`: the existing per-domain
directories (in creation order, as enumerated by `readdirSync`) and the
contents of the `vectors.json` / `config.json` files keyed by the
(sanitized) directory name. -/
structure FS where
  dirs : List Str
  vectorFiles : List (Str × List VectorDocument)
  configFiles : List (Str × DomainConfig)

/-- The empty filesystem: no domain has ever been touched. -/
def fs0 : FS := ⟨[], [], []⟩

/-- Read a file from an association list of files (`fs.existsSync` +
`fs.readFileSync`). -/
def fsLookup {β : Type} (files : List (Str × β)) (k : Str) : Option β :=
  match files.find? (fun p => p.1 == k) with
  | some p => some p.2
  | none => none

/-- Overwrite-or-create a file (`fs.writeFileSync`). -/
def fsWrite {β : Type} (files : List (Str × β)) (k : Str) (v : β) :
    List (Str × β) :=
  (k, v) :: files.filter (fun p => !(p.1 == k))

/-- `fs.mkdirSync(dir, {recursive: true})` guarded by `existsSync`
(`vector-store.ts` line 30). -/
def ensureDir (sd : Str) (σ : FS) : FS :=
  if σ.dirs.contains sd then σ else { σ with dirs := σ.dirs ++ [sd] }

/-- `domainDir` from `vector-store.ts` lines 28–32: sanitize the domain
name and create the directory if it does not exist. -/
def domainDir (d : Str) (σ : FS) : Str × FS :=
  let sd := sanitizeName d
  (sd, ensureDir sd σ)

/-- `loadVectors` from `vector-store.ts` lines 43–47: returns `[]` when
`vectors.json` does not exist.  Computing the path runs `domainDir`,
which creates the directory as a side effect. -/
def loadVectors (d : Str) (σ : FS) : List VectorDocument × FS :=
  let p := domainDir d σ
  ((fsLookup p.2.vectorFiles p.1).getD [], p.2)

/-- `saveVectors` from `vector-store.ts` lines 50–52: whole-file
overwrite of `vectors.json`. -/
def saveVectors (d : Str) (docs : List VectorDocument) (σ : FS) : FS :=
  let p := domainDir d σ
  { p.2 with vectorFiles := fsWrite p.2.vectorFiles p.1 docs }

/-- The in-memory replace-or-append step of `addDocument`
(`vector-store.ts` lines 59–63): `findIndex` on the id, then either
`docs[idx] = doc` or `docs.push(doc)`. -/
def upsertDoc (docs : List VectorDocument) (doc : VectorDocument) :
    List VectorDocument :=
  match docs.findIdx? (fun d => d.id == doc.id) with
  | some i => docs.set i doc
  | none => docs ++ [doc]

/-- `addDocument` from `vector-store.ts` lines 55–65: load, replace or
append by id, save. -/
def addDocument (d : Str) (doc : VectorDocument) (σ : FS) : FS :=
  let p := loadVectors d σ
  saveVectors d (upsertDoc p.1 doc) p.2

/-- Sum of pairwise products, the `dotProduct` accumulator of the loop
in `cosineSimilarity` (`vector-store.ts` lines 73–77; the loop runs over
equal-length vectors when it is reached). -/
noncomputable def dotProd (a b : List ℝ) : ℝ :=
  ((a.zip b).map (fun p => p.1 * p.2)).sum

/-- Sum of squares, the `normA` / `normB` accumulators of the same loop. -/
noncomputable def sqNorm (a : List ℝ) : ℝ :=
  (a.map (fun x => x * x)).sum

/-- `cosineSimilarity` from `vector-store.ts` lines 68–80: returns 0 on
mismatched lengths, otherwise `dot / (sqrt(normA) * sqrt(normB))`, with
a zero denominator mapped to 0. -/
noncomputable def cosineSimilarity (a b : List ℝ) : ℝ :=
  if a.length ≠ b.length then 0
  else
    let denominator := Real.sqrt (sqNorm a) * Real.sqrt (sqNorm b)
    if denominator = 0 then 0 else dotProd a b / denominator

/-- The JavaScript comparator `(a, b) => b.score - a.score` used on
`vector-store.ts` line 100, as the total order fed to the (stable,
per the ECMAScript specification) `Array.prototype.sort`. -/
noncomputable def scoreLE (a b : SearchResult) : Bool :=
  decide (b.score ≤ a.score)

/-- The scored-and-filtered stage of `searchByEmbedding`
(`vector-store.ts` lines 92–99): map every stored document to a
`SearchResult` and keep those with `score >= minScore`. -/
noncomputable def scoredResults (docs : List VectorDocument)
    (queryEmbedding : List ℝ) (minScore : ℝ) : List SearchResult :=
  (docs.map (fun doc =>
    { id := doc.id, title := doc.title, content := doc.content,
      score := cosineSimilarity queryEmbedding doc.embedding })).filter
    (fun r => decide (minScore ≤ r.score))

/-- The pure part of `searchByEmbedding` (`vector-store.ts` lines
89–103): early `[]` on an empty store, then score, filter, stable-sort
descending, truncate to `limit`. -/
noncomputable def searchDocs (docs : List VectorDocument)
    (queryEmbedding : List ℝ) (limit : ℕ) (minScore : ℝ) :
    List SearchResult :=
  if docs.isEmpty then []
  else ((scoredResults docs queryEmbedding minScore).mergeSort
          scoreLE).take limit

/-- `searchByEmbedding` from `vector-store.ts` lines 83–104, with the
`loadVectors` state effect threaded through. -/
noncomputable def searchByEmbedding (d : Str) (queryEmbedding : List ℝ)
    (limit : ℕ) (minScore : ℝ) (σ : FS) : List SearchResult × FS :=
  let p := loadVectors d σ
  (searchDocs p.1 queryEmbedding limit minScore, p.2)

/-- `saveDomainConfig` from `vector-store.ts` lines 107–112. -/
def saveDomainConfig (d : Str) (config : DomainConfig) (σ : FS) : FS :=
  let p := domainDir d σ
  { p.2 with configFiles := fsWrite p.2.configFiles p.1 config }

/-- `loadDomainConfig` from `vector-store.ts` lines 115–121: `none`
when `config.json` does not exist.  Computing the path creates the
directory as a side effect. -/
def loadDomainConfig (d : Str) (σ : FS) : Option DomainConfig × FS :=
  let p := domainDir d σ
  (fsLookup p.2.configFiles p.1, p.2)

/-- The body of the `listDomains` map (`vector-store.ts` lines 136–144)
iterated over the directory entries, threading the state through the
`loadDomainConfig` / `loadVectors` calls.  `config?.domain || d` and
`config?.createdAt || null` fall back on a missing config or a falsy
(empty-string) field. -/
def listDomainsGo : List Str → FS → List DomainInfo × FS
  | [], σ => ([], σ)
  | d :: rest, σ =>
    let pc := loadDomainConfig d σ
    let pv := loadVectors d pc.2
    let info : DomainInfo :=
      { domain := match pc.1 with
          | some c => if c.domain.isEmpty then d else c.domain
          | none => d
        documentCount := pv.1.length
        createdAt := match pc.1 with
          | some c => if c.createdAt.isEmpty then none else some c.createdAt
          | none => none }
    let pr := listDomainsGo rest pv.2
    (info :: pr.1, pr.2)

/-- `listDomains` from `vector-store.ts` lines 124–145: enumerate the
domain directories and report name, document count and creation time. -/
def listDomains (σ : FS) : List DomainInfo × FS :=
  listDomainsGo σ.dirs σ

/-- `deleteDomain` from `vector-store.ts` lines 148–153.  Note that it
first calls `domainDir`, which creates the directory if absent, so the
following `existsSync` check is always true and the directory tree is
removed. -/
def deleteDomain (d : Str) (σ : FS) : FS :=
  let p := domainDir d σ
  { dirs := p.2.dirs.filter (fun x => !(x == p.1)),
    vectorFiles := p.2.vectorFiles.filter (fun x => !(x.1 == p.1)),
    configFiles := p.2.configFiles.filter (fun x => !(x.1 == p.1)) }

/-- A markdown section as produced by `splitMarkdown`
(`mcp-server.ts` lines 46–55). -/
structure MDSection where
  title : Str
  text : Str
deriving DecidableEq

/-- JavaScript `content.split(/^## /m)`: cut the text at every
occurrence of `"## "` that sits at the start of the string or directly
after a newline (line terminators are modelled as `'\n'`).  The Boolean
argument records whether the current position is at a line start. -/
def splitOnHeaderMarks : Bool → Str → List Str
  | _, [] => [[]]
  | true, '#' :: '#' :: ' ' :: rest => [] :: splitOnHeaderMarks false rest
  | _, c :: rest =>
    match splitOnHeaderMarks (c == '\n') rest with
    | [] => [[c]]
    | seg :: segs => (c :: seg) :: segs

/-- `splitMarkdown` from `mcp-server.ts` lines 46–55: split on `## `
line starts, drop blank pieces (`filter(s => s.trim())`), then take the
trimmed first line as title and the trimmed remainder (via
`substring(title.length)`) as text. -/
def splitMarkdown (content : Str) : List MDSection :=
  let sections := (splitOnHeaderMarks true content).filter
    (fun s => !(jsTrim s).isEmpty)
  sections.map (fun sec =>
    let title := jsTrim (sec.takeWhile (fun c => !(c == '\n')))
    let text := jsTrim (sec.drop title.length)
    { title := title, text := text })

/-- The embedding collaborator `generateEmbedding`, an opaque function
that may throw (modelled as `Except`). -/
abbrev EmbedFn := Str → Except Str (List ℝ)

/-- The completion collaborator `callLLM(systemPrompt, history, message)`,
an opaque function that may throw. -/
structure Turn where
  role : Str
  text : Str
deriving DecidableEq

/-- Completion collaborator type: system prompt, history, message. -/
abbrev LLMFn := Str → List Turn → Str → Except Str Str

/-- The document built for the `i+1`-st kept section in `ragchat_setup`
(`mcp-server.ts` lines 124–130): id `` `${domain}-${i + 1}` ``. -/
def mkDoc (domain now : Str) (n : ℕ) (s : MDSection) (emb : List ℝ) :
    VectorDocument :=
  { id := domain ++ ('-' :: (Nat.repr n).data),
    title := s.title, content := s.text, embedding := emb,
    createdAt := now }

/-- Outcome of `ragchat_setup`: either the "no sections" guidance
message (`mcp-server.ts` lines 98–107) or the
`` `${seeded}/${validSections.length}` `` summary with the per-section
error list (lines 138–141). -/
inductive SetupOutcome where
  | noSections
  | summary (seeded : ℕ) (attempted : ℕ) (errors : List (Str × Str))
deriving DecidableEq

/-- The observable result of a `ragchat_setup` run: the reported
outcome plus, for observability, the documents handed to
`addDocument` in order. -/
structure SetupTrace where
  outcome : SetupOutcome
  docsAdded : List VectorDocument

/-- The per-section loop of `ragchat_setup` (`mcp-server.ts` lines
117–136): embed each kept section, store it on success, record the
error otherwise.  Arguments: indexed sections, state, seeded count,
errors so far (reversed), docs added so far (reversed). -/
def setupLoop (embed : EmbedFn) (domain now : Str) :
    List (ℕ × MDSection) → FS → ℕ → List (Str × Str) →
    List VectorDocument → ℕ × List (Str × Str) × List VectorDocument × FS
  | [], σ, seeded, errors, added => (seeded, errors.reverse, added.reverse, σ)
  | (i, s) :: rest, σ, seeded, errors, added =>
    match embed s.text with
    | .ok emb =>
      let doc := mkDoc domain now (i + 1) s emb
      setupLoop embed domain now rest (addDocument domain doc σ)
        (seeded + 1) errors (doc :: added)
    | .error e =>
      setupLoop embed domain now rest σ seeded ((s.title, e) :: errors) added

/-- `ragchat_setup` from `mcp-server.ts` lines 93–151: split the
markdown, keep sections with at least 50 characters of content, return
the guidance message if none survive, otherwise write the domain config
and then embed-and-store each kept section, collecting per-section
errors without aborting. -/
def ragchatSetup (embed : EmbedFn) (domain content systemPrompt now : Str)
    (σ : FS) : SetupTrace × FS :=
  let sections := splitMarkdown content
  let valid := sections.filter (fun s => 50 ≤ s.text.length)
  if valid.isEmpty then ({ outcome := .noSections, docsAdded := [] }, σ)
  else
    let σ₁ := saveDomainConfig domain
      { domain := domain, systemPrompt := systemPrompt, createdAt := now } σ
    let r := setupLoop embed domain now valid.enum σ₁ 0 [] []
    ({ outcome := .summary r.1 valid.length r.2.1, docsAdded := r.2.2.1 },
     r.2.2.2)

/-- A JavaScript value, as far as the chat handler's validation can
distinguish them (`typeof` and truthiness).  Arrays and objects are
always truthy, so their contents are irrelevant here; numbers are
modelled as rationals (falsy exactly at 0). -/
inductive JSValue where
  | undef
  | null
  | bool (b : Bool)
  | num (q : ℚ)
  | str (s : Str)
  | arr
  | obj
deriving DecidableEq

/-- JavaScript truthiness of a `JSValue`. -/
def truthy : JSValue → Bool
  | .undef => false
  | .null => false
  | .bool b => b
  | .num q => !(q == 0)
  | .str s => !s.isEmpty
  | .arr => true
  | .obj => true

/-- JavaScript `typeof v === "string"`. -/
def isString : JSValue → Bool
  | .str _ => true
  | _ => false

/-- The character data of a string value (only used after `isString`). -/
def strVal : JSValue → Str
  | .str s => s
  | _ => []

/-- JavaScript `array.slice(-n)`: the last `n` elements. -/
def lastN {α : Type} (n : ℕ) (l : List α) : List α :=
  l.drop (l.length - n)

/-- The responses of the `POST /chat` handler (`chat-server.ts` lines
61–113): 400 `{error:"message required"}`, 200 `{reply, sources,
latencyMs}`, or 500 `{error}`. -/
inductive ChatResponse where
  | badRequest
  | ok (reply : Str) (sources : List Str)
  | serverError (msg : Str)
deriving DecidableEq

/-- The observable outcome of one `POST /chat` request: the response
plus, for observability, the argument passed to the embedding
collaborator, the search results obtained (`none` when the embedding
call failed), and the `(systemPrompt, history, message)` triple passed
to the completion collaborator. -/
structure ChatOutcome where
  response : ChatResponse
  embedArg : Option Str
  ragResults : Option (List SearchResult)
  llmArgs : Option (Str × List Turn × Str)

/-- The context block appended to the system prompt in `chat-server.ts`
lines 92–94. -/
def ragSuffix (ragContext : Str) : Str :=
  "\n\nRELEVANT CONTEXT FROM KNOWLEDGE BASE:\n".data ++ ragContext ++
  "\n\nUse this context to answer accurately. If the context doesn\x27t cover the question, say so.".data

/-- The `POST /chat` branch of the request handler (`chat-server.ts`
lines 61–113), for a server started on `domain` with the domain config
loaded at startup (lines 36–39).  History turns are modelled as string
pairs; the handler keeps the last 10, drops turns with a falsy (empty)
role or text, and sanitizes the text of the kept ones. -/
noncomputable def handleChat (embed : EmbedFn) (llm : LLMFn)
    (config : DomainConfig) (domain : Str) (message : JSValue)
    (history : List Turn) (σ : FS) : ChatOutcome × FS :=
  if !(truthy message && isString message) then
    ({ response := .badRequest, embedArg := none, ragResults := none,
       llmArgs := none }, σ)
  else
    let clean := sanitize (strVal message)
    let rag : Str × List Str × Option (List SearchResult) × FS :=
      match embed clean with
      | .error _ => ([], [], none, σ)
      | .ok queryEmbed =>
        let p := searchByEmbedding domain queryEmbed 3 (3 / 10 : ℝ) σ
        if p.1.isEmpty then ([], [], some p.1, p.2)
        else (List.intercalate "\n---\n".data (p.1.map (fun r => r.content)),
              p.1.map (fun r => r.id), some p.1, p.2)
    let systemPrompt :=
      if rag.1.isEmpty then config.systemPrompt
      else config.systemPrompt ++ ragSuffix rag.1
    let safeHistory :=
      ((lastN 10 history).filter
        (fun h => !h.role.isEmpty && !h.text.isEmpty)).map
        (fun h => { role := h.role, text := sanitize h.text : Turn })
    match llm systemPrompt safeHistory clean with
    | .ok reply =>
      ({ response := .ok reply rag.2.1, embedArg := some clean,
         ragResults := rag.2.2.1,
         llmArgs := some (systemPrompt, safeHistory, clean) }, rag.2.2.2)
    | .error e =>
      ({ response := .serverError e, embedArg := some clean,
         ragResults := rag.2.2.1,
         llmArgs := some (systemPrompt, safeHistory, clean) }, rag.2.2.2)

/-- The responses of the `ragchat_test` tool (`mcp-server.ts` lines
165–218): the "not found" message, the formatted reply (sources kept
here as `(id, score)` pairs; the source renders them as
`` `${r.id} (${r.score.toFixed(2)})` ``), or the error report. -/
inductive TestResponse where
  | notFound
  | ok (reply : Str) (sources : List (Str × ℝ))
  | err (msg : Str)

/-- The observable outcome of one `ragchat_test` call, instrumented
like `ChatOutcome`. -/
structure TestOutcome where
  response : TestResponse
  embedArg : Option Str
  ragResults : Option (List SearchResult)
  llmArgs : Option (Str × List Turn × Str)

/-- The context block appended to the system prompt in `mcp-server.ts`
lines 197–199. -/
def testRagSuffix (ragContext : Str) : Str :=
  "\n\nRELEVANT CONTEXT:\n".data ++ ragContext ++
  "\n\nUse this context to answer accurately.".data

/-- `ragchat_test` from `mcp-server.ts` lines 165–218: load the domain
config (reporting "not found" when absent), embed the raw message, run
the search, optionally augment the prompt, and call the completion
collaborator with an empty history and the raw message. -/
noncomputable def ragchatTest (embed : EmbedFn) (llm : LLMFn)
    (domain message : Str) (σ : FS) : TestOutcome × FS :=
  let pc := loadDomainConfig domain σ
  match pc.1 with
  | none =>
    ({ response := .notFound, embedArg := none, ragResults := none,
       llmArgs := none }, pc.2)
  | some config =>
    let rag : Str × List (Str × ℝ) × Option (List SearchResult) × FS :=
      match embed message with
      | .error _ => ([], [], none, pc.2)
      | .ok queryEmbed =>
        let p := searchByEmbedding domain queryEmbed 3 (3 / 10 : ℝ) pc.2
        if p.1.isEmpty then ([], [], some p.1, p.2)
        else (List.intercalate "\n---\n".data (p.1.map (fun r => r.content)),
              p.1.map (fun r => (r.id, r.score)), some p.1, p.2)
    let systemPrompt :=
      if rag.1.isEmpty then config.systemPrompt
      else config.systemPrompt ++ testRagSuffix rag.1
    match llm systemPrompt [] message with
    | .ok reply =>
      ({ response := .ok reply rag.2.1, embedArg := some message,
         ragResults := rag.2.2.1,
         llmArgs := some (systemPrompt, [], message) }, rag.2.2.2)
    | .error e =>
      ({ response := .err e, embedArg := some message,
         ragResults := rag.2.2.1,
         llmArgs := some (systemPrompt, [], message) }, rag.2.2.2)

/-- C8: `sanitize` is idempotent and its output never exceeds
`MAX_INPUT = 1000` characters. -/
theorem sanitize_idempotent_bounded (x : Str) :
    sanitize (sanitize x) = sanitize x ∧ (sanitize x).length ≤ MAX_INPUT := by
  constructor
  · show ((((x.take MAX_INPUT).filter _).take MAX_INPUT).filter _) = _
    rw [List.take_of_length_le
      (le_trans (List.length_filter_le _ _) (by simp))]
    simp [sanitize]
  · exact le_trans (List.length_filter_le _ _) (by simp [MAX_INPUT])

/-- Closed instance of `sanitize_idempotent_bounded` at a concrete
input containing a control character and ordinary text. -/
theorem sanitize_idempotent_bounded_witness :
    sanitize (sanitize ['a', '\x00', 'b']) = sanitize ['a', '\x00', 'b'] ∧
    (sanitize ['a', '\x00', 'b']).length ≤ MAX_INPUT :=
  sanitize_idempotent_bounded ['a', '\x00', 'b']

/-- C4: `cosineSimilarity` returns 0 on mismatched dimensions and
returns 0 whenever either vector has zero (squared) norm; being a total
Lean function over `ℝ`, it returns a value on every input (the source
never throws: the guarded division is the only partial operation). -/
theorem cosineSimilarity_total_zero (a b : List ℝ) :
    (a.length ≠ b.length → cosineSimilarity a b = 0) ∧
    (sqNorm a = 0 ∨ sqNorm b = 0 → cosineSimilarity a b = 0) := by
  constructor
  · intro h
    simp [cosineSimilarity, h]
  · intro h
    by_cases hl : a.length ≠ b.length
    · simp [cosineSimilarity, hl]
    · rcases h with h | h <;>
        simp [cosineSimilarity, hl, h, Real.sqrt_zero]

/-- Closed instance of `cosineSimilarity_total_zero`: a dimension
mismatch and a zero vector both score 0. -/
theorem cosineSimilarity_total_zero_witness :
    cosineSimilarity [(1 : ℝ)] [1, 2] = 0 ∧
    cosineSimilarity [(0 : ℝ), 0] [3, 4] = 0 :=
  ⟨(cosineSimilarity_total_zero [(1 : ℝ)] [1, 2]).1 (by simp),
   (cosineSimilarity_total_zero [(0 : ℝ), 0] [3, 4]).2
     (Or.inl (by simp [sqNorm]))⟩

/-- C5: `addDocument`'s replace-or-append step is an upsert keyed by
id.  If some stored document has the new document's id, the new one
replaces it at the first such position, the length is unchanged and
every other position is untouched; otherwise the new document is
appended and the length grows by exactly one. -/
theorem upsertDoc_spec (docs : List VectorDocument) (doc : VectorDocument) :
    ((∃ d ∈ docs, d.id = doc.id) →
      (upsertDoc docs doc).length = docs.length ∧
      ∃ i, docs.findIdx? (fun d => d.id == doc.id) = some i ∧
        upsertDoc docs doc = docs.set i doc ∧
        (upsertDoc docs doc)[i]? = some doc ∧
        ∀ j, j ≠ i → (upsertDoc docs doc)[j]? = docs[j]?) ∧
    ((∀ d ∈ docs, d.id ≠ doc.id) →
      upsertDoc docs doc = docs ++ [doc] ∧
      (upsertDoc docs doc).length = docs.length + 1) := by
  constructor
  · rintro ⟨d, hd, hid⟩
    have hex : ∃ x, x ∈ docs ∧ (fun d : VectorDocument => d.id == doc.id) x :=
      ⟨d, hd, by simpa using hid⟩
    have hsome := List.findIdx?_eq_some_of_exists hex
    have hlt : docs.findIdx (fun d => d.id == doc.id) < docs.length :=
      List.findIdx_lt_length_of_exists hex
    refine ⟨?_, docs.findIdx _, hsome, ?_, ?_, ?_⟩
    · simp [upsertDoc, hsome]
    · simp [upsertDoc, hsome]
    · simp only [upsertDoc, hsome]
      exact List.getElem?_set_self hlt
    · intro j hj
      simp [upsertDoc, hsome, List.getElem?_set_ne (Ne.symm hj)]
  · intro h
    have hnone : docs.findIdx? (fun d => d.id == doc.id) = none := by
      rw [List.findIdx?_eq_none_iff]
      intro x hx
      simpa using h x hx
    constructor
    · simp [upsertDoc, hnone]
    · simp [upsertDoc, hnone]

/-- Closed instance of `upsertDoc_spec`: replacing an existing id keeps
the length at 2; inserting a fresh id appends. -/
theorem upsertDoc_spec_witness :
    (upsertDoc
      [⟨['a'], [], [], [], []⟩, ⟨['b'], [], [], [], []⟩]
      ⟨['a'], ['t'], ['c'], [(1 : ℝ)], []⟩).length = 2 ∧
    upsertDoc [⟨['a'], [], [], [], []⟩] ⟨['c'], [], [], [], []⟩ =
      [⟨['a'], [], [], [], []⟩, ⟨['c'], [], [], [], []⟩] := by
  constructor
  · exact ((upsertDoc_spec
      [⟨['a'], [], [], [], []⟩, ⟨['b'], [], [], [], []⟩]
      ⟨['a'], ['t'], ['c'], [(1 : ℝ)], []⟩).1
        ⟨⟨['a'], [], [], [], []⟩, List.mem_cons_self _ _, rfl⟩).1
  · exact ((upsertDoc_spec [⟨['a'], [], [], [], []⟩]
      ⟨['c'], [], [], [], []⟩).2
        (by rintro d hd; simp at hd; subst hd; simp)).1

/-- An embedding collaborator that always fails, for closed instances. -/
def embed0 : EmbedFn := fun _ => .error []

/-- A completion collaborator that always replies "ok", for closed
instances. -/
def llm0 : LLMFn := fun _ _ _ => .ok ['o', 'k']

/-- A concrete domain config, for closed instances. -/
def cfg0 : DomainConfig := ⟨"acme".data, "sys".data, "now".data⟩

/-- C10: when no section passes the 50-character filter, `ragchat_setup`
returns the guidance outcome without adding any document and without
touching the store: the filesystem state is returned unchanged. -/
theorem ragchatSetup_atomic_no_sections (embed : EmbedFn)
    (domain content systemPrompt now : Str) (σ : FS)
    (h : (splitMarkdown content).filter (fun s => 50 ≤ s.text.length) = []) :
    ragchatSetup embed domain content systemPrompt now σ =
      ({ outcome := .noSections, docsAdded := [] }, σ) := by
  simp [ragchatSetup, h]

/-- Closed instance of `ragchatSetup_atomic_no_sections`: a markdown
input with one short section leaves the empty filesystem untouched. -/
theorem ragchatSetup_atomic_no_sections_witness :
    ragchatSetup embed0 "acme".data "## t\nhi".data "sys".data "now".data
      fs0 = ({ outcome := .noSections, docsAdded := [] }, fs0) :=
  ragchatSetup_atomic_no_sections embed0 "acme".data "## t\nhi".data
    "sys".data "now".data fs0 (by decide)

/-- C1 counterexample: `POST /chat` with `{message: ""}` is rejected
with 400 `{error:"message required"}`, because `!message` is true for
the empty string.  This contradicts the claim that an empty-string
message is not rejected. -/
theorem chat_empty_message_rejected :
    (handleChat embed0 llm0 cfg0 "acme".data (.str []) [] fs0).1.response =
      ChatResponse.badRequest := rfl

/-- C1 (amended): the chat handler answers 400 `message required`
exactly when the message field is falsy or not a string — that is, when
it is absent, not a string, or the empty string.  A present, non-empty
string message is never rejected as invalid (for a string `s` the
validation test is exactly `!s.isEmpty`). -/
theorem chat_validation_rejects_iff (embed : EmbedFn) (llm : LLMFn)
    (config : DomainConfig) (domain : Str) (message : JSValue)
    (history : List Turn) (σ : FS) :
    ((handleChat embed llm config domain message history σ).1.response =
        ChatResponse.badRequest ↔
      ¬(truthy message = true ∧ isString message = true)) ∧
    ∀ s : Str, (truthy (.str s) && isString (.str s)) = !s.isEmpty := by
  constructor
  · by_cases hc : (truthy message && isString message) = true
    · rw [Bool.and_eq_true] at hc
      simp only [handleChat, Bool.and_eq_true, hc, and_self, not_true,
        iff_false, Bool.not_true, Bool.false_eq_true, if_false]
      split
      · simp_all
      · split <;> simp
    · have hc' : (truthy message && isString message) = false := by
        revert hc; cases truthy message && isString message <;> simp
      rw [Bool.and_eq_false_iff] at hc'
      simp only [handleChat, Bool.and_eq_false_iff] at *
      rcases hc' with h | h <;>
        simp [h, Bool.not_eq_true]
  · intro s
    simp [truthy, isString]

/-- Closed instance of `chat_validation_rejects_iff`: a non-empty
string message is not rejected. -/
theorem chat_validation_rejects_iff_witness :
    (handleChat embed0 llm0 cfg0 "acme".data (.str ['h', 'i']) [] fs0).1.response ≠
      ChatResponse.badRequest := by
  have h := (chat_validation_rejects_iff embed0 llm0 cfg0 "acme".data
    (.str ['h', 'i']) [] fs0).1
  intro hbad
  exact (h.mp hbad) ⟨rfl, rfl⟩

/-- Every turn of the sanitized history used by the chat handler comes
from an inbound history turn, with the same role and sanitized text. -/
theorem safeHistory_from_history (history : List Turn) (t : Turn)
    (ht : t ∈ ((lastN 10 history).filter
        (fun h => !h.role.isEmpty && !h.text.isEmpty)).map
        (fun h => { role := h.role, text := sanitize h.text : Turn })) :
    ∃ t₀ ∈ history, t.role = t₀.role ∧ t.text = sanitize t₀.text := by
  rcases List.mem_map.mp ht with ⟨t₀, ht₀, rfl⟩
  exact ⟨t₀, List.mem_of_mem_drop (List.mem_filter.mp ht₀).1, rfl, rfl⟩

/-- C2 counterexample: the non-HTTP test path (`ragchat_test`) forwards
the raw message to the embedding and completion collaborators without
any sanitization — here a message containing the control character NUL
reaches both collaborators unchanged, even though `sanitize` would have
stripped it. -/
theorem test_path_forwards_unsanitized :
    (ragchatTest embed0 llm0 "acme".data ['a', '\x00']
        (saveDomainConfig "acme".data cfg0 fs0)).1.embedArg =
      some ['a', '\x00'] ∧
    (ragchatTest embed0 llm0 "acme".data ['a', '\x00']
        (saveDomainConfig "acme".data cfg0 fs0)).1.llmArgs =
      some (cfg0.systemPrompt, [], ['a', '\x00']) ∧
    sanitize ['a', '\x00'] ≠ ['a', '\x00'] :=
  ⟨rfl, rfl, by decide⟩

/-- C2 (amended): in the HTTP chat path every inbound text field is
sanitized before use — the embedding collaborator receives the
sanitized message, the completion collaborator receives the sanitized
message, and every history turn it receives is a history turn with
sanitized text; the non-HTTP test path, by contrast, forwards the raw
message to both collaborators without truncation or control-character
stripping. -/
theorem sanitization_http_only :
    (∀ (embed : EmbedFn) (llm : LLMFn) (config : DomainConfig)
        (domain raw : Str) (history : List Turn) (σ : FS),
      raw.isEmpty = false →
      (handleChat embed llm config domain (.str raw) history σ).1.embedArg =
        some (sanitize raw) ∧
      ∀ p h m,
        (handleChat embed llm config domain (.str raw) history σ).1.llmArgs =
          some (p, h, m) →
        m = sanitize raw ∧
        ∀ t ∈ h, ∃ t₀ ∈ history, t.role = t₀.role ∧
          t.text = sanitize t₀.text) ∧
    (∀ (embed : EmbedFn) (llm : LLMFn) (domain message : Str) (σ : FS)
        (cfg : DomainConfig),
      (loadDomainConfig domain σ).1 = some cfg →
      (ragchatTest embed llm domain message σ).1.embedArg = some message ∧
      ∀ p h m,
        (ragchatTest embed llm domain message σ).1.llmArgs = some (p, h, m) →
        m = message ∧ h = []) := by
  constructor
  · intro embed llm config domain raw history σ hraw
    have hcond : (!(truthy (JSValue.str raw) && isString (JSValue.str raw))) =
        false := by
      simp [truthy, isString, hraw]
    have hllm : ∀ p h m,
        (handleChat embed llm config domain (.str raw) history σ).1.llmArgs =
          some (p, h, m) →
        m = sanitize raw ∧
        h = ((lastN 10 history).filter
            (fun h => !h.role.isEmpty && !h.text.isEmpty)).map
            (fun h => { role := h.role, text := sanitize h.text : Turn }) := by
      simp only [handleChat, strVal, hcond, Bool.false_eq_true, if_false]
      split <;>
        (intro p h m hsome
         simp only [Option.some.injEq, Prod.mk.injEq] at hsome
         exact ⟨hsome.2.2.symm, hsome.2.1.symm⟩)
    refine ⟨?_, fun p h m hsome => ?_⟩
    · simp only [handleChat, strVal, hcond, Bool.false_eq_true, if_false]
      split <;> rfl
    · rcases hllm p h m hsome with ⟨hm, hh⟩
      refine ⟨hm, fun t ht => ?_⟩
      exact safeHistory_from_history history t (hh ▸ ht)
  · intro embed llm domain message σ cfg hcfg
    constructor
    · simp only [ragchatTest, hcfg]
      split <;> rfl
    · intro p h m
      simp only [ragchatTest, hcfg]
      split <;>
        (intro hsome
         simp only [Option.some.injEq, Prod.mk.injEq] at hsome
         exact ⟨hsome.2.2.symm, hsome.2.1.symm⟩)

/-- Closed instance of `sanitization_http_only`: the HTTP path embeds
the sanitized message, and the test path forwards the raw message. -/
theorem sanitization_http_only_witness :
    (handleChat embed0 llm0 cfg0 "acme".data (.str ['a', '\x00']) []
        fs0).1.embedArg = some (sanitize ['a', '\x00']) ∧
    (ragchatTest embed0 llm0 "acme".data ['a', '\x00']
        (saveDomainConfig "acme".data cfg0 fs0)).1.embedArg =
      some ['a', '\x00'] := by
  constructor
  · exact (sanitization_http_only.1 embed0 llm0 cfg0 "acme".data
      ['a', '\x00'] [] fs0 (by decide)).1
  · exact (sanitization_http_only.2 embed0 llm0 "acme".data ['a', '\x00']
      (saveDomainConfig "acme".data cfg0 fs0) cfg0 (by decide)).1

/-- C7: retrieval failure degrades gracefully in both chat paths.  If
the embedding collaborator fails, the completion collaborator is still
invoked with the original, unaugmented system prompt and the request
completes normally when the completion succeeds; if the search returns
no results, the prompt passed to the completion collaborator is the
original system prompt; the prompt is augmented only when the search
returned at least one result; and a 500/error response can only arise
from a completion-collaborator failure, never from retrieval. -/
theorem retrieval_degrades_gracefully :
    (∀ (embed : EmbedFn) (llm : LLMFn) (config : DomainConfig)
        (domain raw : Str) (history : List Turn) (σ : FS),
      raw.isEmpty = false →
      (∀ e, embed (sanitize raw) = .error e →
        (handleChat embed llm config domain (.str raw) history σ).1.ragResults
            = none ∧
        ∃ h,
          (handleChat embed llm config domain (.str raw) history σ).1.llmArgs
            = some (config.systemPrompt, h, sanitize raw) ∧
          ∀ r, llm config.systemPrompt h (sanitize raw) = .ok r →
            (handleChat embed llm config domain
              (.str raw) history σ).1.response = .ok r []) ∧
      ((handleChat embed llm config domain (.str raw) history σ).1.ragResults
          = some [] →
        ∀ p h m,
          (handleChat embed llm config domain (.str raw) history σ).1.llmArgs
            = some (p, h, m) → p = config.systemPrompt) ∧
      (∀ p h m,
        (handleChat embed llm config domain (.str raw) history σ).1.llmArgs
          = some (p, h, m) →
        p ≠ config.systemPrompt →
        ∃ rs,
          (handleChat embed llm config domain
            (.str raw) history σ).1.ragResults = some rs ∧ rs ≠ []) ∧
      (∀ msg,
        (handleChat embed llm config domain (.str raw) history σ).1.response
          = .serverError msg →
        ∃ p h m,
          (handleChat embed llm config domain (.str raw) history σ).1.llmArgs
            = some (p, h, m) ∧ llm p h m = .error msg)) ∧
    (∀ (embed : EmbedFn) (llm : LLMFn) (domain message : Str) (σ : FS)
        (cfg : DomainConfig),
      (loadDomainConfig domain σ).1 = some cfg →
      (∀ e, embed message = .error e →
        (ragchatTest embed llm domain message σ).1.ragResults = none ∧
        (ragchatTest embed llm domain message σ).1.llmArgs
          = some (cfg.systemPrompt, [], message) ∧
        ∀ r, llm cfg.systemPrompt [] message = .ok r →
          (ragchatTest embed llm domain message σ).1.response = .ok r []) ∧
      ((ragchatTest embed llm domain message σ).1.ragResults = some [] →
        ∀ p h m,
          (ragchatTest embed llm domain message σ).1.llmArgs
            = some (p, h, m) → p = cfg.systemPrompt) ∧
      (∀ p h m,
        (ragchatTest embed llm domain message σ).1.llmArgs = some (p, h, m) →
        p ≠ cfg.systemPrompt →
        ∃ rs, (ragchatTest embed llm domain message σ).1.ragResults
          = some rs ∧ rs ≠ [])) := by
  constructor
  · intro embed llm config domain raw history σ hraw
    have hcond : (!(truthy (JSValue.str raw) && isString (JSValue.str raw))) =
        false := by
      simp [truthy, isString, hraw]
    refine ⟨?_, ?_, ?_, ?_⟩
    · intro e hE
      simp only [handleChat, strVal, hcond, Bool.false_eq_true, if_false, hE,
        List.isEmpty_nil, if_true]
      split
      · rename_i reply heq
        exact ⟨rfl, _, rfl, fun r hr => by
          rw [heq] at hr
          cases hr
          rfl⟩
      · rename_i e' heq
        exact ⟨rfl, _, rfl, fun r hr => by rw [heq] at hr; cases hr⟩
    · intro hres p h m hargs
      rcases hE : embed (sanitize raw) with e | qv
      · simp only [handleChat, strVal, hcond, Bool.false_eq_true, if_false,
          hE] at hres
        split at hres <;> cases hres
      · simp only [handleChat, strVal, hcond, Bool.false_eq_true, if_false,
          hE] at hres hargs
        rcases hse : (searchByEmbedding domain qv 3 (3 / 10 : ℝ) σ).1.isEmpty
        · simp only [hse, Bool.false_eq_true, if_false] at hres hargs
          split at hres <;>
            (simp only [Option.some.injEq] at hres
             rw [hres] at hse
             simp at hse)
        · simp only [hse, if_true, List.isEmpty_nil] at hargs
          split at hargs <;>
            (simp only [Option.some.injEq, Prod.mk.injEq] at hargs
             exact hargs.1.symm)
    · intro p h m hargs hne
      rcases hE : embed (sanitize raw) with e | qv
      · simp only [handleChat, strVal, hcond, Bool.false_eq_true, if_false,
          hE, List.isEmpty_nil, if_true] at hargs
        split at hargs <;>
          (simp only [Option.some.injEq, Prod.mk.injEq] at hargs
           exact absurd hargs.1.symm hne)
      · simp only [handleChat, strVal, hcond, Bool.false_eq_true, if_false,
          hE] at hargs ⊢
        rcases hse : (searchByEmbedding domain qv 3 (3 / 10 : ℝ) σ).1.isEmpty
        · simp only [hse, Bool.false_eq_true, if_false] at hargs ⊢
          refine ⟨(searchByEmbedding domain qv 3 (3 / 10 : ℝ) σ).1, ?_, ?_⟩
          · split <;> rfl
          · intro hnil
            rw [hnil] at hse
            simp at hse
        · simp only [hse, if_true, List.isEmpty_nil] at hargs
          split at hargs <;>
            (simp only [Option.some.injEq, Prod.mk.injEq] at hargs
             exact absurd hargs.1.symm hne)
    · intro msg hres
      have hget : ∀ p h m,
          (handleChat embed llm config domain (.str raw) history σ).1.llmArgs
            = some (p, h, m) → llm p h m = .error msg := by
        intro p h m hargs
        simp only [handleChat, strVal, hcond, Bool.false_eq_true, if_false]
          at hres hargs
        split at hres
        · cases hres
        · rename_i e' heq
          cases hres
          split at hargs
          · rename_i reply heq2
            rw [heq] at heq2
            cases heq2
          · rename_i e2 heq2
            simp only [Option.some.injEq, Prod.mk.injEq] at hargs
            obtain ⟨hp, hh, hm⟩ := hargs
            subst hp
            subst hh
            subst hm
            rw [heq] at heq2
            cases heq2
            exact heq
      have hsome : ∃ a,
          (handleChat embed llm config domain (.str raw) history σ).1.llmArgs
            = some a := by
        simp only [handleChat, strVal, hcond, Bool.false_eq_true, if_false]
        split <;> exact ⟨_, rfl⟩
      obtain ⟨⟨p, h, m⟩, ha⟩ := hsome
      exact ⟨p, h, m, ha, hget p h m ha⟩
  · intro embed llm domain message σ cfg hcfg
    refine ⟨?_, ?_, ?_⟩
    · intro e hE
      simp only [ragchatTest, hcfg, hE, List.isEmpty_nil, if_true]
      split
      · rename_i reply heq
        exact ⟨rfl, rfl, fun r hr => by rw [heq] at hr; cases hr; rfl⟩
      · rename_i e' heq
        exact ⟨rfl, rfl, fun r hr => by rw [heq] at hr; cases hr⟩
    · intro hres p h m hargs
      rcases hE : embed message with e | qv
      · simp only [ragchatTest, hcfg, hE] at hres
        split at hres <;> cases hres
      · simp only [ragchatTest, hcfg, hE] at hres hargs
        rcases hse :
            (searchByEmbedding domain qv 3 (3 / 10 : ℝ)
              (loadDomainConfig domain σ).2).1.isEmpty
        · simp only [hse, Bool.false_eq_true, if_false] at hres hargs
          split at hres <;>
            (simp only [Option.some.injEq] at hres
             rw [hres] at hse
             simp at hse)
        · simp only [hse, if_true, List.isEmpty_nil] at hargs
          split at hargs <;>
            (simp only [Option.some.injEq, Prod.mk.injEq] at hargs
             exact hargs.1.symm)
    · intro p h m hargs hne
      rcases hE : embed message with e | qv
      · simp only [ragchatTest, hcfg, hE, List.isEmpty_nil, if_true] at hargs
        split at hargs <;>
          (simp only [Option.some.injEq, Prod.mk.injEq] at hargs
           exact absurd hargs.1.symm hne)
      · simp only [ragchatTest, hcfg, hE] at hargs ⊢
        rcases hse :
            (searchByEmbedding domain qv 3 (3 / 10 : ℝ)
              (loadDomainConfig domain σ).2).1.isEmpty
        · simp only [hse, Bool.false_eq_true, if_false] at hargs ⊢
          refine ⟨(searchByEmbedding domain qv 3 (3 / 10 : ℝ)
            (loadDomainConfig domain σ).2).1, ?_, ?_⟩
          · split <;> rfl
          · intro hnil
            rw [hnil] at hse
            simp at hse
        · simp only [hse, if_true, List.isEmpty_nil] at hargs
          split at hargs <;>
            (simp only [Option.some.injEq, Prod.mk.injEq] at hargs
             exact absurd hargs.1.symm hne)

/-- Closed instance of `retrieval_degrades_gracefully`: with a failing
embedding collaborator the request still completes with the plain
system prompt. -/
theorem retrieval_degrades_gracefully_witness :
    (handleChat embed0 llm0 cfg0 "acme".data (.str ['h', 'i']) []
        fs0).1.response = .ok ['o', 'k'] [] := by
  rcases (retrieval_degrades_gracefully.1 embed0 llm0 cfg0 "acme".data
      ['h', 'i'] [] fs0 (by decide)).1 [] rfl with ⟨-, h, -, hok⟩
  exact hok ['o', 'k'] rfl

/-- Name sanitization is idempotent: its output only contains allowed
characters and underscores, and an underscore maps to itself. -/
theorem sanitizeName_idem (d : Str) :
    sanitizeName (sanitizeName d) = sanitizeName d := by
  simp only [sanitizeName, List.map_map]
  apply List.map_congr_left
  intro c _
  by_cases h : isAllowedNameChar c = true
  · simp [h]
  · simp only [Function.comp_apply, h, if_false, Bool.false_eq_true]
    simp

/-- Creating a directory never touches the vectors files. -/
@[simp] theorem ensureDir_vectorFiles (sd : Str) (σ : FS) :
    (ensureDir sd σ).vectorFiles = σ.vectorFiles := by
  unfold ensureDir
  split <;> rfl

/-- Creating a directory never touches the config files. -/
@[simp] theorem ensureDir_configFiles (sd : Str) (σ : FS) :
    (ensureDir sd σ).configFiles = σ.configFiles := by
  unfold ensureDir
  split <;> rfl

/-- After `ensureDir` the directory exists. -/
theorem mem_ensureDir (sd : Str) (σ : FS) : sd ∈ (ensureDir sd σ).dirs := by
  unfold ensureDir
  split
  · next h => exact List.elem_iff.mp h
  · simp

/-- A never-ingested directory present in the listing: if `sd` is among
the directories, is a fixed point of name sanitization, and has neither
a config file nor a vectors file, then `listDomainsGo` reports it with
document count 0 and no creation time. -/
theorem listDomainsGo_mem (sd : Str) (hsan : sanitizeName sd = sd) :
    ∀ (dirs : List Str) (σ : FS),
      sd ∈ dirs →
      fsLookup σ.configFiles sd = none →
      fsLookup σ.vectorFiles sd = none →
      (⟨sd, 0, none⟩ : DomainInfo) ∈ (listDomainsGo dirs σ).1
  | [], _, h, _, _ => absurd h (List.not_mem_nil sd)
  | d :: rest, σ, hmem, hcfg, hvec => by
    rcases List.mem_cons.mp hmem with rfl | hmem'
    · unfold listDomainsGo
      simp only [loadDomainConfig, loadVectors, domainDir, hsan,
        ensureDir_configFiles, ensureDir_vectorFiles, hcfg, hvec,
        Option.getD_none, List.length_nil]
      exact List.mem_cons_self _ _
    · unfold listDomainsGo
      refine List.mem_cons_of_mem _ ?_
      exact listDomainsGo_mem sd hsan rest _ hmem'
        (by
          simp only [loadVectors, loadDomainConfig, domainDir,
            ensureDir_configFiles]
          exact hcfg)
        (by
          simp only [loadVectors, loadDomainConfig, domainDir,
            ensureDir_vectorFiles]
          exact hvec)

/-- C9 counterexample: calling `deleteDomain` on a namespace that was
never ingested does not make it appear in `listDomains` — the directory
is created transiently by `domainDir` but removed by the same call, so
the listing stays empty and the directory is absent afterwards. -/
theorem deleteDomain_absent_counterexample :
    (listDomains (deleteDomain "ghost".data fs0)).1 = [] ∧
    sanitizeName "ghost".data ∉ (deleteDomain "ghost".data fs0).dirs := by
  decide

/-- C9 (amended): the read-only store operations `loadVectors`,
`loadDomainConfig` and `searchByEmbedding` create the namespace's
directory as a side effect, so a never-ingested namespace subsequently
appears in `listDomains` with document count 0 and no creation time;
`deleteDomain`, however, only creates the directory transiently and
removes it in the same call, so the namespace does not appear
afterwards. -/
theorem store_ops_create_dir (σ : FS) (d : Str) (q : List ℝ) (k : ℕ)
    (m : ℝ) :
    sanitizeName d ∈ (loadVectors d σ).2.dirs ∧
    sanitizeName d ∈ (loadDomainConfig d σ).2.dirs ∧
    sanitizeName d ∈ (searchByEmbedding d q k m σ).2.dirs ∧
    sanitizeName d ∉ (deleteDomain d σ).dirs ∧
    (fsLookup σ.configFiles (sanitizeName d) = none →
     fsLookup σ.vectorFiles (sanitizeName d) = none →
     (⟨sanitizeName d, 0, none⟩ : DomainInfo) ∈
       (listDomains (loadVectors d σ).2).1) := by
  refine ⟨mem_ensureDir _ _, mem_ensureDir _ _, mem_ensureDir _ _, ?_, ?_⟩
  · intro hmem
    simp only [deleteDomain, domainDir, List.mem_filter] at hmem
    simp at hmem
  · intro hcfg hvec
    have hdirs : (loadVectors d σ).2.dirs = (ensureDir (sanitizeName d) σ).dirs := rfl
    unfold listDomains
    rw [hdirs]
    exact listDomainsGo_mem (sanitizeName d) (sanitizeName_idem d) _ _
      (mem_ensureDir _ _)
      (by rw [show (loadVectors d σ).2.configFiles = σ.configFiles from
            ensureDir_configFiles _ _]
          exact hcfg)
      (by rw [show (loadVectors d σ).2.vectorFiles = σ.vectorFiles from
            ensureDir_vectorFiles _ _]
          exact hvec)

/-- Closed instance of `store_ops_create_dir`: merely loading vectors
for a never-ingested namespace makes it appear in the listing with
document count 0 and no creation time. -/
theorem store_ops_create_dir_witness :
    sanitizeName "ghost".data ∈ (loadVectors "ghost".data fs0).2.dirs ∧
    (⟨sanitizeName "ghost".data, 0, none⟩ : DomainInfo) ∈
      (listDomains (loadVectors "ghost".data fs0).2).1 := by
  have h := store_ops_create_dir fs0 "ghost".data [] 3 0
  exact ⟨h.1, h.2.2.2.2 rfl rfl⟩

/-- When every embedding call succeeds, the setup loop seeds every
section, reports no errors, and hands the store exactly one document
per indexed section, built by `mkDoc`. -/
theorem setupLoop_ok (embedF : Str → List ℝ) (domain now : Str) :
    ∀ (secs : List (ℕ × MDSection)) (σ : FS) (seeded : ℕ)
      (errors : List (Str × Str)) (added : List VectorDocument),
      (setupLoop (fun t => .ok (embedF t)) domain now secs σ seeded errors
        added).1 = seeded + secs.length ∧
      (setupLoop (fun t => .ok (embedF t)) domain now secs σ seeded errors
        added).2.1 = errors.reverse ∧
      (setupLoop (fun t => .ok (embedF t)) domain now secs σ seeded errors
        added).2.2.1 = added.reverse ++
          secs.map (fun p => mkDoc domain now (p.1 + 1) p.2 (embedF p.2.text))
  | [], σ, seeded, errors, added => by
    simp [setupLoop]
  | (i, s) :: rest, σ, seeded, errors, added => by
    have ih := setupLoop_ok embedF domain now rest
      (addDocument domain (mkDoc domain now (i + 1) s (embedF s.text)) σ)
      (seeded + 1) errors
      (mkDoc domain now (i + 1) s (embedF s.text) :: added)
    simp only [setupLoop]
    refine ⟨?_, ih.2.1, ?_⟩
    · rw [ih.1]
      simp only [List.length_cons]
      omega
    · rw [ih.2.2]
      simp [List.append_assoc]

/-- The concrete markdown of the C6 scenario: one section with 80
characters of content and one with 10. -/
def scenarioContent : Str :=
  "## A\n".data ++ List.replicate 80 'x' ++ "\n## B\n".data ++
    List.replicate 10 'y'

/-- C6: ingestion keeps exactly the sections of the split markdown
whose content has at least 50 characters; when every embedding succeeds
it reports `n/n` for the `n` kept sections with no errors, and the
documents handed to the store are exactly the kept sections in order,
the `i`-th (1-based, over the filtered list) getting id
`` `${domain}-${i}` ``.  In the concrete scenario of one 80-character
and one 10-character section, exactly one document is stored and the
summary reports 1/1. -/
theorem ragchatSetup_sections_spec :
    (∀ (embedF : Str → List ℝ) (domain content systemPrompt now : Str)
        (σ : FS),
      ((splitMarkdown content).filter
          (fun s => 50 ≤ s.text.length)).isEmpty = false →
      (ragchatSetup (fun t => .ok (embedF t)) domain content systemPrompt now
          σ).1.outcome =
        .summary
          ((splitMarkdown content).filter
            (fun s => 50 ≤ s.text.length)).length
          ((splitMarkdown content).filter
            (fun s => 50 ≤ s.text.length)).length [] ∧
      (ragchatSetup (fun t => .ok (embedF t)) domain content systemPrompt now
          σ).1.docsAdded =
        ((splitMarkdown content).filter
            (fun s => 50 ≤ s.text.length)).enum.map
          (fun p => mkDoc domain now (p.1 + 1) p.2 (embedF p.2.text))) ∧
    (ragchatSetup (fun _ => .ok []) "acme".data scenarioContent "sys".data
        "now".data fs0).1.outcome = .summary 1 1 [] ∧
    (loadVectors "acme".data
        (ragchatSetup (fun _ => .ok []) "acme".data scenarioContent
          "sys".data "now".data fs0).2).1 =
      [{ id := "acme-1".data, title := "A".data,
         content := List.replicate 80 'x', embedding := [],
         createdAt := "now".data }] := by
  refine ⟨?_, ?_, ?_⟩
  · intro embedF domain content systemPrompt now σ hvalid
    have hloop := setupLoop_ok embedF domain now
      ((splitMarkdown content).filter (fun s => 50 ≤ s.text.length)).enum
      (saveDomainConfig domain
        { domain := domain, systemPrompt := systemPrompt, createdAt := now }
        σ) 0 [] []
    constructor
    · simp only [ragchatSetup, hvalid, Bool.false_eq_true, if_false]
      rw [hloop.1, hloop.2.1]
      simp [List.enum_length]
    · simp only [ragchatSetup, hvalid, Bool.false_eq_true, if_false]
      rw [hloop.2.2]
      simp
  · decide
  · rfl

/-- The search comparator is transitive. -/
theorem scoreLE_trans (a b c : SearchResult) :
    scoreLE a b → scoreLE b c → scoreLE a c := by
  intro hab hbc
  simp only [scoreLE, decide_eq_true_eq] at *
  exact le_trans hbc hab

/-- The search comparator is total. -/
theorem scoreLE_total (a b : SearchResult) : scoreLE a b || scoreLE b a := by
  simp only [scoreLE, Bool.or_eq_true, decide_eq_true_eq]
  exact le_total _ _

/-- C3: `searchByEmbedding`'s pure search returns at most `limit`
results, every result scores at least `minScore`, the results are
sorted by non-increasing score, and the sort is stable: the results are
the image of an index-decorated list `E` drawn from the scored-and-
filtered document list (which preserves insertion order), in which any
two tied scores appear with strictly increasing original positions. -/
theorem searchDocs_spec (docs : List VectorDocument) (q : List ℝ) (k : ℕ)
    (m : ℝ) :
    (searchDocs docs q k m).length ≤ k ∧
    (∀ r ∈ searchDocs docs q k m, m ≤ r.score) ∧
    (searchDocs docs q k m).Pairwise (fun a b => b.score ≤ a.score) ∧
    ∃ E : List (ℕ × SearchResult),
      searchDocs docs q k m = (E.take k).map (fun p => p.2) ∧
      E.Perm (scoredResults docs q m).enum ∧
      (∀ p ∈ E, (scoredResults docs q m)[p.1]? = some p.2) ∧
      E.Pairwise (fun p p' => p.2.score = p'.2.score → p.1 < p'.1) := by
  by_cases hd : docs.isEmpty
  · rw [List.isEmpty_iff] at hd
    subst hd
    refine ⟨?_, ?_, ?_, [], ?_, ?_, ?_, ?_⟩
    · simp [searchDocs]
    · simp [searchDocs]
    · simp [searchDocs]
    · simp [searchDocs]
    · exact List.Perm.refl _
    · simp
    · exact List.Pairwise.nil
  · have hd' : docs.isEmpty = false := by
      revert hd; cases docs.isEmpty <;> simp
    have hsd : searchDocs docs q k m =
        ((scoredResults docs q m).mergeSort scoreLE).take k := by
      simp [searchDocs, hd']
    have hms : (scoredResults docs q m).mergeSort scoreLE =
        (List.mergeSort (scoredResults docs q m).enum
          (List.enumLE scoreLE)).map (fun p => p.2) :=
      (List.mergeSort_enum).symm
    have hperm := List.mergeSort_perm (scoredResults docs q m).enum
      (List.enumLE scoreLE)
    refine ⟨?_, ?_, ?_,
      List.mergeSort (scoredResults docs q m).enum (List.enumLE scoreLE),
      ?_, hperm, ?_, ?_⟩
    · rw [hsd]
      simp [List.length_take]
    · intro r hr
      rw [hsd] at hr
      have hmem := List.mem_mergeSort.mp (List.mem_of_mem_take hr)
      simp only [scoredResults, List.mem_filter, decide_eq_true_eq] at hmem
      exact hmem.2
    · rw [hsd]
      refine List.Pairwise.imp ?_
        ((List.sorted_mergeSort scoreLE_trans scoreLE_total
          (scoredResults docs q m)).sublist (List.take_sublist _ _))
      intro a b h
      simpa [scoreLE] using h
    · rw [hsd, hms, List.map_take]
    · intro p hp
      exact List.mem_enum_iff_getElem?.mp (hperm.mem_iff.mp hp)
    · have hs := List.sorted_mergeSort (List.enumLE_trans scoreLE_trans)
        (List.enumLE_total scoreLE_total) (scoredResults docs q m).enum
      have h1 : ((scoredResults docs q m).enum.map Prod.fst).Nodup := by
        rw [List.enum_map_fst]
        exact List.nodup_range _
      have h2 : ((List.mergeSort (scoredResults docs q m).enum
          (List.enumLE scoreLE)).map Prod.fst).Nodup :=
        ((hperm.map Prod.fst).nodup_iff).mpr h1
      have hnd := List.pairwise_map.mp h2
      refine List.Pairwise.imp ?_ (hs.and hnd)
      intro p p' h heq
      obtain ⟨hle, hne⟩ := h
      have hb1 : scoreLE p.2 p'.2 = true := by simp [scoreLE, heq]
      have hb2 : scoreLE p'.2 p.2 = true := by simp [scoreLE, heq]
      simp only [List.enumLE, hb1, hb2, if_true] at hle
      exact Nat.lt_of_le_of_ne (by simpa using hle) hne

/-- Closed instance of `searchDocs_spec`: searching an empty store and
a one-document store returns at most 3 results. -/
theorem searchDocs_spec_witness :
    (searchDocs [] [] 3 (3 / 10 : ℝ)).length ≤ 3 ∧
    (searchDocs [⟨"a".data, [], [], [(1 : ℝ)], []⟩] [(1 : ℝ)] 3 0).length
      ≤ 3 :=
  ⟨(searchDocs_spec [] [] 3 (3 / 10 : ℝ)).1,
   (searchDocs_spec [⟨"a".data, [], [], [(1 : ℝ)], []⟩] [(1 : ℝ)] 3 0).1⟩

/-- Closed instance of `ragchatSetup_sections_spec`: on the concrete
scenario content the documents handed to the store are exactly the
kept sections with their 1-based ids. -/
theorem ragchatSetup_sections_spec_witness :
    (ragchatSetup (fun t => .ok ((fun _ => ([] : List ℝ)) t)) "acme".data
        scenarioContent "sys".data "now".data fs0).1.docsAdded =
      ((splitMarkdown scenarioContent).filter
          (fun s => 50 ≤ s.text.length)).enum.map
        (fun p => mkDoc "acme".data "now".data (p.1 + 1) p.2 []) :=
  (ragchatSetup_sections_spec.1 (fun _ => ([] : List ℝ)) "acme".data
    scenarioContent "sys".data "now".data fs0 (by decide)).2
